import Mathlib

/-!
Shallow embedding of the `image-api` repository: the `jobdb` job store
(`jobs`, `outbox`, `idempotency_keys` tables and their operations), the
ingest HTTP handlers (`PostJobsImageCrop`, `GetJobsId`), the worker's
`/pubsub/jobs` handler, and the `imageproc.CropImage` stage.

Modelling conventions:
- SQL tables become Lean lists of row structures; an `UPDATE ... WHERE`
  becomes a `List.map` that rewrites the matching rows in place, and an
  `INSERT` appends.  Primary-key uniqueness is carried as a `Nodup`
  hypothesis on the list of ids where a theorem needs it.
- `NowISO()` values are external inputs, passed as explicit `now`
  parameters (Go fetches a fresh timestamp per statement; none of the
  verified properties compares timestamps across statements, so a single
  parameter per operation is used).
- Go `int` becomes `Int`; JSON documents stored in the database are
  opaque `String`s except for a job's `result`, which is modelled as the
  outcome of `json.Unmarshal` (`RawDoc`) because `GetJobsId` inspects it.
- Database connection errors are external and not modelled; the
  functions below embed the success path of each SQL round trip.
-/

/-- Result of Go's `json.Unmarshal` of a JSON document into `any`:
strings, numbers, booleans, null, arrays, and objects.  An object models
the resulting `map[string]any`, whose keys are unique. -/
inductive GoValue where
  | nullV : GoValue
  | boolV (b : Bool) : GoValue
  | numV (n : Int) : GoValue
  | strV (s : String) : GoValue
  | arrV (elems : List GoValue) : GoValue
  | objV (fields : List (String × GoValue)) : GoValue

/-- Raw bytes of a stored JSON column as seen by `extractCroppedImageURL`:
`empty` models a NULL column or zero-length `json.RawMessage` (the
`len(result) == 0` check), `invalid` models bytes on which
`json.Unmarshal` errors, and `doc v` models bytes parsing to `v`. -/
inductive RawDoc where
  | empty : RawDoc
  | invalid : RawDoc
  | doc (v : GoValue) : RawDoc

/-- Row of the `jobs` table (struct `jobdb.Job`).  `error` is Go's
`sql.NullString`: `none` is NULL. -/
structure JobRow where
  id : String
  status : String
  payload : String
  result : RawDoc
  error : Option String
  createdAt : String
  updatedAt : String

/-- Row of the `outbox` table as created by the migrations. -/
structure OutboxRow where
  id : String
  jobId : String
  payload : String
  publishedAt : Option String
  attempts : Nat
  lastError : Option String
  createdAt : String
  updatedAt : String
deriving DecidableEq

/-- Struct `jobdb.OutboxMessage`: the projection of an outbox row that
`ClaimOutboxBatch` selects and returns. -/
structure OutboxMessage where
  id : String
  jobId : String
  payload : String
deriving DecidableEq

/-- Row of the `idempotency_keys` table. -/
structure IdempotencyRecord where
  key : String
  requestHash : String
  jobId : String
  createdAt : String
deriving DecidableEq

/-- The shared relational store: the three tables. -/
structure Store where
  jobs : List JobRow
  outbox : List OutboxRow
  idem : List IdempotencyRecord

/-- Ordering of job rows used by `ORDER BY created_at` in `ClaimJob`. -/
def jobCreatedLe (a b : JobRow) : Prop := a.createdAt ≤ b.createdAt

instance : DecidableRel jobCreatedLe := fun a b =>
  inferInstanceAs (Decidable (a.createdAt ≤ b.createdAt))

instance : IsTotal JobRow jobCreatedLe :=
  ⟨fun a b => le_total a.createdAt b.createdAt⟩

instance : IsTrans JobRow jobCreatedLe :=
  ⟨fun _ _ _ hab hbc => le_trans hab hbc⟩

/-- Ordering of outbox rows used by `ORDER BY created_at` in
`ClaimOutboxBatch`. -/
def outboxCreatedLe (a b : OutboxRow) : Prop := a.createdAt ≤ b.createdAt

instance : DecidableRel outboxCreatedLe := fun a b =>
  inferInstanceAs (Decidable (a.createdAt ≤ b.createdAt))

instance : IsTotal OutboxRow outboxCreatedLe :=
  ⟨fun a b => le_total a.createdAt b.createdAt⟩

instance : IsTrans OutboxRow outboxCreatedLe :=
  ⟨fun _ _ _ hab hbc => le_trans hab hbc⟩

/-- Row-level effect of the conditional `UPDATE` of `StartJob`. -/
def startUpdate (now jobID : String) (r : JobRow) : JobRow :=
  if r.id == jobID && r.status == "pending" then
    { r with status := "in_progress", updatedAt := now }
  else r

/-- `jobdb.StartJob`: `UPDATE jobs SET status = 'in_progress',
updated_at = ? WHERE id = ? AND status = 'pending'`, returning
`RowsAffected() == 1`. -/
def StartJob (db : List JobRow) (now jobID : String) : Bool × List JobRow :=
  (db.countP (fun r => r.id == jobID && r.status == "pending") == 1,
   db.map (startUpdate now jobID))

/-- `jobdb.GetJob`: point read by primary key; `none` models
`sql.ErrNoRows` mapped to `ok=false`. -/
def GetJob (db : List JobRow) (jobID : String) : Option JobRow :=
  db.find? (fun r => r.id == jobID)

/-- Row-level effect of the `UPDATE` of `CompleteJob`. -/
def completeUpdate (now jobID : String) (result : RawDoc) (r : JobRow) :
    JobRow :=
  if r.id == jobID then
    { r with status := "done", result := result, error := none,
             updatedAt := now }
  else r

/-- `jobdb.CompleteJob`: `UPDATE jobs SET status = 'done', result = ?,
error = NULL, updated_at = ? WHERE id = ?` (no gate on the current
status). -/
def CompleteJob (db : List JobRow) (now jobID : String) (result : RawDoc) :
    List JobRow :=
  db.map (completeUpdate now jobID result)

/-- Row-level effect of the `UPDATE` of `FailJob`. -/
def failUpdate (now jobID errMsg : String) (r : JobRow) : JobRow :=
  if r.id == jobID then
    { r with status := "failed", error := some errMsg, updatedAt := now }
  else r

/-- `jobdb.FailJob`: `UPDATE jobs SET status = 'failed', error = ?,
updated_at = ? WHERE id = ?` (no gate on the current status; `result` is
left untouched). -/
def FailJob (db : List JobRow) (now jobID errMsg : String) : List JobRow :=
  db.map (failUpdate now jobID errMsg)

/-- `jobdb.InsertJob`: insert a fresh row with `status='pending'`,
NULL result and error, both timestamps `now`. -/
def InsertJob (db : List JobRow) (payload newJobId now : String) :
    JobRow × List JobRow :=
  let job : JobRow :=
    { id := newJobId, status := "pending", payload := payload,
      result := RawDoc.empty, error := none,
      createdAt := now, updatedAt := now }
  (job, db ++ [job])

/-- `jobdb.ClaimJob`: select one `pending` row ordered by `created_at`
(`LIMIT 1 FOR UPDATE SKIP LOCKED`) and set it `in_progress` in the same
transaction (`UPDATE ... WHERE id = ?`). -/
def ClaimJob (db : List JobRow) (now : String) : Option JobRow × List JobRow :=
  match (db.filter (fun r => r.status == "pending")).insertionSort jobCreatedLe with
  | [] => (none, db)
  | j :: _ =>
    (some { j with status := "in_progress", updatedAt := now },
     db.map (fun r =>
       if r.id == j.id then { r with status := "in_progress", updatedAt := now }
       else r))

/-- Projection `OutboxMessage{ID, JobID, Payload}` of a selected outbox
row, as scanned by `ClaimOutboxBatch`. -/
def outboxToMessage (r : OutboxRow) : OutboxMessage :=
  { id := r.id, jobId := r.jobId, payload := r.payload }

/-- One `UPDATE outbox SET attempts = attempts + 1, updated_at = ?
WHERE id = ?` statement of `ClaimOutboxBatch`. -/
def bumpAttempts (db : List OutboxRow) (outboxID now : String) :
    List OutboxRow :=
  db.map (fun r =>
    if r.id == outboxID then
      { r with attempts := r.attempts + 1, updatedAt := now }
    else r)

/-- Rows returned by the `SELECT ... WHERE published_at IS NULL ORDER BY
created_at LIMIT ? FOR UPDATE SKIP LOCKED` of `ClaimOutboxBatch`. -/
def claimSelect (limit : Int) (db : List OutboxRow) : List OutboxRow :=
  ((db.filter (fun r => r.publishedAt.isNone)).insertionSort outboxCreatedLe).take
    limit.toNat

/-- Outcome of `jobdb.ClaimOutboxBatch`: the returned messages, the
outbox table after commit, and whether a transaction was begun (the
`limit <= 0` guard returns before `BeginTx`). -/
structure ClaimResult where
  msgs : List OutboxMessage
  db : List OutboxRow
  beganTx : Bool
deriving DecidableEq

/-- `jobdb.ClaimOutboxBatch`: guard `limit <= 0`, select the batch, then
increment `attempts` and set `updated_at` row by row, and return the
selected messages.  `published_at` is never written. -/
def ClaimOutboxBatch (limit : Int) (now : String) (db : List OutboxRow) :
    ClaimResult :=
  if limit ≤ 0 then { msgs := [], db := db, beganTx := false }
  else
    let sel := claimSelect limit db
    { msgs := sel.map outboxToMessage,
      db := sel.foldl (fun acc r => bumpAttempts acc r.id now) db,
      beganTx := true }

/-- `jobdb.MarkOutboxPublished`: `UPDATE outbox SET published_at = ?,
last_error = NULL, updated_at = ? WHERE id = ?`. -/
def MarkOutboxPublished (db : List OutboxRow) (outboxID now : String) :
    List OutboxRow :=
  db.map (fun r =>
    if r.id == outboxID then
      { r with publishedAt := some now, lastError := none, updatedAt := now }
    else r)

/-- `jobdb.RecordOutboxError`: `UPDATE outbox SET last_error = ?,
updated_at = ? WHERE id = ?`. -/
def RecordOutboxError (db : List OutboxRow) (outboxID errMsg now : String) :
    List OutboxRow :=
  db.map (fun r =>
    if r.id == outboxID then
      { r with lastError := some errMsg, updatedAt := now }
    else r)

/-- Payload `json.Marshal(map[string]string{"jobId": jobID})` of a fresh
outbox row. -/
def mkOutboxPayload (jobId : String) : String :=
  "\x7b\"jobId\":\"" ++ jobId ++ "\"\x7d"

/-- Fresh outbox row as inserted by `InsertJobWithOutbox`:
`VALUES (?, ?, ?, NULL, 0, NULL, ?, ?)`. -/
def mkOutboxRow (outboxId jobId payload now : String) : OutboxRow :=
  { id := outboxId, jobId := jobId, payload := payload,
    publishedAt := none, attempts := 0, lastError := none,
    createdAt := now, updatedAt := now }

/-- `jobdb.InsertJobWithOutbox`: insert the job row and its paired
outbox row in one transaction. -/
def InsertJobWithOutbox (st : Store) (payload newJobId newOutboxId now : String) :
    JobRow × OutboxRow × Store :=
  let job : JobRow :=
    { id := newJobId, status := "pending", payload := payload,
      result := RawDoc.empty, error := none,
      createdAt := now, updatedAt := now }
  let ob := mkOutboxRow newOutboxId newJobId (mkOutboxPayload newJobId) now
  (job, ob,
   { st with jobs := st.jobs ++ [job], outbox := st.outbox ++ [ob] })

/-- The store-level outbox operations, for stating properties quantified
over every operation that touches the `outbox` table. -/
inductive OutboxOp where
  | claimBatch (limit : Int) (now : String) : OutboxOp
  | markPublished (id now : String) : OutboxOp
  | recordError (id msg now : String) : OutboxOp
  | insert (outboxId jobId payload now : String) : OutboxOp

/-- Effect of each store operation on the `outbox` table. -/
def applyOutboxOp (db : List OutboxRow) : OutboxOp → List OutboxRow
  | OutboxOp.claimBatch limit now => (ClaimOutboxBatch limit now db).db
  | OutboxOp.markPublished id now => MarkOutboxPublished db id now
  | OutboxOp.recordError id msg now => RecordOutboxError db id msg now
  | OutboxOp.insert outboxId jobId payload now =>
      db ++ [mkOutboxRow outboxId jobId payload now]

/-- Failure modes of `InsertJobWithOutboxAndIdempotency`:
`conflict` is `jobdb.ErrIdempotencyKeyConflict`. -/
inductive IdempotencyError where
  | conflict : IdempotencyError
  | missingJob : IdempotencyError
deriving DecidableEq

/-- Successful outcome of `InsertJobWithOutboxAndIdempotency`. -/
structure IdemInsertResult where
  job : JobRow
  outbox : Option OutboxRow
  reused : Bool
  store : Store

/-- Modelled from the spec: the function
`jobdb.InsertJobWithOutboxAndIdempotency` is not among the provided
sources (only its caller in `cmd/api/main.go` and a unit test of its
helper `isDuplicateKeyError` are).  Per the spec, atomically: look up
`idempotency_keys` by `key`; if absent, insert Job, Outbox and a new
idempotency row (`key → (hash, job_id)`) and return `reused=false`; if
present and the stored hash equals `hash`, return the existing Job
looked up by `job_id` with `reused=true` (no outbox row is handed back
for publication); if present with a different hash, fail with
`IdempotencyConflict`.  A stored record whose `job_id` does not resolve
is not covered by the spec and is mapped to a store-level error here. -/
def InsertJobWithOutboxAndIdempotency (st : Store)
    (payload key hash newJobId newOutboxId now : String) :
    Except IdempotencyError IdemInsertResult :=
  match st.idem.find? (fun rec => rec.key == key) with
  | none =>
    let r := InsertJobWithOutbox st payload newJobId newOutboxId now
    Except.ok
      { job := r.1, outbox := some r.2.1, reused := false,
        store := { r.2.2 with
                    idem := r.2.2.idem ++
                      [{ key := key, requestHash := hash,
                         jobId := r.1.id, createdAt := now }] } }
  | some rec =>
    if rec.requestHash == hash then
      match GetJob st.jobs rec.jobId with
      | some job =>
        Except.ok { job := job, outbox := none, reused := true, store := st }
      | none => Except.error IdempotencyError.missingJob
    else Except.error IdempotencyError.conflict

/-- Request body of `POST /jobs/image-crop`
(`api.ImageCropRequest`). -/
structure ImageCropRequest where
  imageUrl : String
  x : Int
  y : Int
  width : Int
  height : Int
deriving DecidableEq

/-- Canonical JSON re-encoding `json.Marshal(req)` stored as the job
payload. -/
def encodePayload (req : ImageCropRequest) : String :=
  "\x7b\"imageUrl\":\"" ++ req.imageUrl ++ "\",\"x\":" ++ toString req.x ++
  ",\"y\":" ++ toString req.y ++ ",\"width\":" ++ toString req.width ++
  ",\"height\":" ++ toString req.height ++ "\x7d"

/-- What `POST /jobs/image-crop` produced: the HTTP status, the job id
carried in a success body (`none` for error bodies), the store after the
request, and whether a Pub/Sub publish was attempted. -/
structure PostResult where
  status : Nat
  jobId : Option String
  store : Store
  publishAttempted : Bool

/-- `server.publishJob`: publish, then `MarkOutboxPublished` on success
or `RecordOutboxError` on failure.  `publishErr` is the bus outcome
(external): `none` is an acknowledged publish. -/
def applyPublish (st : Store) (outboxID : String) (publishErr : Option String)
    (now : String) : Store :=
  match publishErr with
  | none => { st with outbox := MarkOutboxPublished st.outbox outboxID now }
  | some e => { st with outbox := RecordOutboxError st.outbox outboxID e now }

/-- `server.PostJobsImageCrop` of `cmd/api/main.go`: validate
(`imageUrl` non-empty, `width > 0`, `height > 0`; there is no URL-scheme
check), then branch on the `Idempotency-Key` header (`""` models an
absent header, as `r.Header.Get` returns).  `bodyHash` is
`hashBody(body)`, the SHA-256 of the raw body, an external input
here. -/
def PostJobsImageCrop (st : Store) (req : ImageCropRequest)
    (bodyHash idemKey newJobId newOutboxId now : String)
    (publishErr : Option String) : PostResult :=
  if req.imageUrl == "" then
    { status := 400, jobId := none, store := st, publishAttempted := false }
  else if req.width ≤ 0 ∨ req.height ≤ 0 then
    { status := 400, jobId := none, store := st, publishAttempted := false }
  else if idemKey != "" then
    match InsertJobWithOutboxAndIdempotency st (encodePayload req) idemKey
        bodyHash newJobId newOutboxId now with
    | Except.error IdempotencyError.conflict =>
      { status := 409, jobId := none, store := st, publishAttempted := false }
    | Except.error IdempotencyError.missingJob =>
      { status := 500, jobId := none, store := st, publishAttempted := false }
    | Except.ok res =>
      if res.reused then
        { status := 200, jobId := some res.job.id, store := res.store,
          publishAttempted := false }
      else
        let st2 := match res.outbox with
          | some ob => applyPublish res.store ob.id publishErr now
          | none => res.store
        { status := 201, jobId := some res.job.id, store := st2,
          publishAttempted := true }
  else
    let r := InsertJobWithOutbox st (encodePayload req) newJobId newOutboxId now
    { status := 201, jobId := some r.1.id,
      store := applyPublish r.2.2 r.2.1.id publishErr now,
      publishAttempted := true }

/-- `extractCroppedImageURL` of `cmd/api/main.go`: length-zero result →
nil; `json.Unmarshal` failure (including any non-object document, which
cannot unmarshal into `map[string]any`) → nil; missing key → nil;
non-string value → nil; empty string → nil; otherwise the string. -/
def extractCroppedImageURL : RawDoc → Option String
  | RawDoc.empty => none
  | RawDoc.invalid => none
  | RawDoc.doc (GoValue.objV fields) =>
    match fields.lookup "croppedImageUrl" with
    | some (GoValue.strV s) => if s == "" then none else some s
    | some _ => none
    | none => none
  | RawDoc.doc _ => none

/-- `extractError` of `cmd/api/main.go`: NULL or empty string → nil. -/
def extractError : Option String → Option String
  | none => none
  | some s => if s == "" then none else some s

/-- Body of a `200` response from `GET /jobs/{id}`
(`api.JobResponse`). -/
structure JobView where
  id : String
  status : String
  croppedImageUrl : Option String
  error : Option String
  createdAt : String
  updatedAt : String
deriving DecidableEq

/-- `server.GetJobsId`: `GetJob`, then 404 when absent, else 200 with
the derived fields. -/
def GetJobsId (db : List JobRow) (id : String) : Nat × Option JobView :=
  match GetJob db id with
  | none => (404, none)
  | some job =>
    (200, some { id := job.id, status := job.status,
                 croppedImageUrl := extractCroppedImageURL job.result,
                 error := extractError job.error,
                 createdAt := job.createdAt, updatedAt := job.updatedAt })

/-- The worker's `/pubsub/jobs` handler after envelope decoding
(`cmd/worker/main.go`): claim via `StartJob`; if not claimed respond 200
without touching the job; else fetch the job, run the pipeline
(`outcome`, an external collaborator result), and record the terminal
state.  Returns the HTTP status and the jobs table afterwards. -/
def handlePubSubJobs (db : List JobRow) (now jobID : String)
    (outcome : Except String RawDoc) : Nat × List JobRow :=
  let r := StartJob db now jobID
  if !r.1 then (200, r.2)
  else
    match GetJob r.2 jobID with
    | none => (404, r.2)
    | some job =>
      match outcome with
      | Except.error e => (500, FailJob r.2 now job.id e)
      | Except.ok result => (200, CompleteJob r.2 now job.id result)

/-- Crop rectangle (`imageproc.Crop`). -/
structure Crop where
  x : Int
  y : Int
  width : Int
  height : Int
deriving DecidableEq

/-- Two's-complement wrap of an integer into the Go `int` (64-bit)
range `[-2^63, 2^63)`, as Go addition overflows. -/
def wrap64 (n : Int) : Int := (n + 2 ^ 63) % 2 ^ 64 - 2 ^ 63

/-- `imageproc.CropImage` on an image whose bounds have `Dx() = imgW`
and `Dy() = imgH`: reject non-positive dimensions or negative offsets as
`ErrCropInvalid`, reject rectangles exceeding the bounds as
`ErrCropOutOfBounds`, else return the cropped dimensions.  The sums
`crop.X+crop.Width` and `crop.Y+crop.Height` are Go `int` additions and
wrap on overflow, so they are taken modulo 2^64 here; the field values
and the image bounds are themselves `int`-ranged and are compared
directly. -/
def CropImage (imgW imgH : Int) (c : Crop) : Except String (Int × Int) :=
  if c.width ≤ 0 ∨ c.height ≤ 0 ∨ c.x < 0 ∨ c.y < 0 then
    Except.error "crop rectangle is invalid"
  else if wrap64 (c.x + c.width) > imgW ∨ wrap64 (c.y + c.height) > imgH then
    Except.error "crop rectangle exceeds image bounds"
  else Except.ok (c.width, c.height)

instance {ε α : Type} [DecidableEq ε] [DecidableEq α] :
    DecidableEq (Except ε α) := fun x y =>
  match x, y with
  | Except.ok a, Except.ok b =>
    if h : a = b then isTrue (by rw [h])
    else isFalse (by intro hc; injection hc; contradiction)
  | Except.error e, Except.error f =>
    if h : e = f then isTrue (by rw [h])
    else isFalse (by intro hc; injection hc; contradiction)
  | Except.ok _, Except.error _ => isFalse (by intro hc; cases hc)
  | Except.error _, Except.ok _ => isFalse (by intro hc; cases hc)

/-- Repeated `StartJob` calls on the same id: the list of returned
booleans and the final table. -/
def StartJobSeq (db : List JobRow) (jobID : String) :
    List String → List Bool × List JobRow
  | [] => ([], db)
  | now :: rest =>
    let r := StartJob db now jobID
    let rr := StartJobSeq r.2 jobID rest
    (r.1 :: rr.1, rr.2)

/-- Forward motion along the status lattice of invariant J1:
`pending → in_progress → one of done, failed`, reflexively. -/
def statusForward (a b : String) : Prop :=
  a = b ∨
  (a = "pending" ∧ (b = "in_progress" ∨ b = "done" ∨ b = "failed")) ∨
  (a = "in_progress" ∧ (b = "done" ∨ b = "failed"))

instance (a b : String) : Decidable (statusForward a b) := by
  unfold statusForward; infer_instance

/-! ### Helper lemmas about `StartJob` -/

/-- The guarded-update predicate of `StartJob`. -/
def startPred (jobID : String) (r : JobRow) : Bool :=
  r.id == jobID && r.status == "pending"

lemma startPred_iff (jobID : String) (r : JobRow) :
    startPred jobID r = true ↔ r.id = jobID ∧ r.status = "pending" := by
  simp [startPred]

lemma StartJob_fst (db : List JobRow) (now jobID : String) :
    (StartJob db now jobID).1 = (db.countP (startPred jobID) == 1) := rfl

lemma countP_id_le_one (db : List JobRow) (jobID : String)
    (hnd : (db.map (·.id)).Nodup) :
    db.countP (startPred jobID) ≤ 1 := by
  have h1 : db.countP (startPred jobID) ≤ db.countP (fun r => r.id == jobID) :=
    List.countP_mono_left (by
      intro r _ hr
      exact (Bool.and_elim_left hr))
  have h2 : db.countP (fun r => r.id == jobID) =
      (db.map (·.id)).count jobID := by
    rw [List.count_eq_countP, List.countP_map]
    rfl
  have h3 : (db.map (·.id)).count jobID ≤ 1 :=
    List.nodup_iff_count_le_one.mp hnd jobID
  omega

lemma StartJob_fst_true_iff (db : List JobRow) (now jobID : String)
    (hnd : (db.map (·.id)).Nodup) :
    (StartJob db now jobID).1 = true ↔
      ∃ r ∈ db, r.id = jobID ∧ r.status = "pending" := by
  rw [StartJob_fst]
  constructor
  · intro h
    have hc : db.countP (startPred jobID) = 1 := by
      simpa using h
    have : 0 < db.countP (startPred jobID) := by omega
    obtain ⟨r, hr, hpr⟩ := List.countP_pos_iff.mp this
    exact ⟨r, hr, (startPred_iff jobID r).mp hpr⟩
  · rintro ⟨r, hr, hid, hst⟩
    have hpos : 0 < db.countP (startPred jobID) :=
      List.countP_pos_iff.mpr ⟨r, hr, (startPred_iff jobID r).mpr ⟨hid, hst⟩⟩
    have hle := countP_id_le_one db jobID hnd
    have : db.countP (startPred jobID) = 1 := by omega
    simp [this]

lemma StartJob_false_of_no_pending (db : List JobRow) (now jobID : String)
    (h : ∀ r ∈ db, ¬(r.id = jobID ∧ r.status = "pending")) :
    (StartJob db now jobID).1 = false ∧ (StartJob db now jobID).2 = db := by
  have hz : db.countP (startPred jobID) = 0 :=
    List.countP_eq_zero.mpr (fun r hr => by
      intro hpr
      exact h r hr ((startPred_iff jobID r).mp hpr))
  constructor
  · rw [StartJob_fst, hz]
    rfl
  · show db.map _ = db
    have : ∀ r ∈ db, startUpdate now jobID r = id r := by
      intro r hr
      have hnp : ¬(startPred jobID r = true) := fun hpr =>
        h r hr ((startPred_iff jobID r).mp hpr)
      simp only [startPred] at hnp
      simp [startUpdate, hnp]
    rw [List.map_congr_left this, List.map_id]

lemma StartJob_no_pending_after (db : List JobRow) (now jobID : String) :
    ∀ r ∈ (StartJob db now jobID).2, ¬(r.id = jobID ∧ r.status = "pending") := by
  intro r hr
  obtain ⟨a, _, rfl⟩ := List.mem_map.mp hr
  unfold startUpdate
  by_cases h : (a.id == jobID && a.status == "pending") = true
  · rw [if_pos h]
    rintro ⟨_, hst⟩
    exact absurd hst (by simp)
  · rw [if_neg h]
    intro hc
    exact h (by simp [hc.1, hc.2])

lemma StartJobSeq_count_zero (db : List JobRow) (jobID : String)
    (times : List String)
    (h : ∀ r ∈ db, ¬(r.id = jobID ∧ r.status = "pending")) :
    (StartJobSeq db jobID times).1.count true = 0 := by
  induction times generalizing db with
  | nil => simp [StartJobSeq]
  | cons now rest ih =>
    obtain ⟨hf, hs⟩ := StartJob_false_of_no_pending db now jobID h
    simp only [StartJobSeq, hf, hs, List.count_cons]
    simp [ih db h]

lemma StartJobSeq_count_le_one (db : List JobRow) (jobID : String)
    (times : List String) :
    (StartJobSeq db jobID times).1.count true ≤ 1 := by
  induction times generalizing db with
  | nil => simp [StartJobSeq]
  | cons now rest ih =>
    simp only [StartJobSeq, List.count_cons]
    cases hb : (StartJob db now jobID).1 with
    | false =>
      have := ih (StartJob db now jobID).2
      simp [hb]
      omega
    | true =>
      have hz := StartJobSeq_count_zero (StartJob db now jobID).2 jobID rest
        (StartJob_no_pending_after db now jobID)
      simp [hb, hz]

/-- C1: `StartJob` transitions a job `pending → in_progress` only if its
current status is `pending`, returns `true` iff the conditional update
affected exactly one row (equivalently, under primary-key uniqueness,
iff a pending row with that id existed), and among any sequence of
`StartJob` calls on the same id at most one returns `true` — every call
after the first successful one returns `false`. -/
theorem StartJob_spec (db : List JobRow) (now jobID : String)
    (times : List String) (hnd : (db.map (·.id)).Nodup) :
    ((StartJob db now jobID).1 = true ↔
      ∃ r ∈ db, r.id = jobID ∧ r.status = "pending")
    ∧ ((StartJob db now jobID).1 = (db.countP (startPred jobID) == 1))
    ∧ (∀ i : Nat, ∀ r r', db[i]? = some r →
        (StartJob db now jobID).2[i]? = some r' →
        r' = r ∨
        (r.id = jobID ∧ r.status = "pending" ∧
          r' = { r with status := "in_progress", updatedAt := now }))
    ∧ (StartJobSeq db jobID times).1.count true ≤ 1 := by
  refine ⟨StartJob_fst_true_iff db now jobID hnd, rfl, ?_, StartJobSeq_count_le_one db jobID times⟩
  intro i r r' hr hr'
  have : (StartJob db now jobID).2[i]? =
      db[i]?.map (startUpdate now jobID) := by
    simp [StartJob, List.getElem?_map]
  rw [this, hr] at hr'
  simp only [Option.map] at hr'
  unfold startUpdate at hr'
  by_cases h : (r.id == jobID && r.status == "pending") = true
  · right
    have hp := (startPred_iff jobID r).mp (by simpa [startPred] using h)
    refine ⟨hp.1, hp.2, ?_⟩
    rw [if_pos h] at hr'
    exact (Option.some_inj.mp hr').symm
  · left
    rw [if_neg h] at hr'
    exact (Option.some_inj.mp hr').symm

/-- Witness for C1 at a concrete one-row table and two calls: the
hypotheses hold and the success count over the call sequence is at most
one. -/
theorem StartJob_spec_witness :
    (([⟨"j1", "pending", "p", RawDoc.empty, none, "t0", "t0"⟩] :
        List JobRow).map (·.id)).Nodup
    ∧ (StartJobSeq [⟨"j1", "pending", "p", RawDoc.empty, none, "t0", "t0"⟩]
        "j1" ["t1", "t2"]).1.count true ≤ 1 :=
  ⟨by decide,
   (StartJob_spec [⟨"j1", "pending", "p", RawDoc.empty, none, "t0", "t0"⟩]
     "t1" "j1" ["t1", "t2"] (by decide)).2.2.2⟩

/-! ### Status-transition behaviour of the job-store operations -/

lemma statusForward_refl (a : String) : statusForward a a := Or.inl rfl

lemma statusForward_pending_in_progress :
    statusForward "pending" "in_progress" := Or.inr (Or.inl ⟨rfl, Or.inl rfl⟩)

/-- C2 counterexample: `FailJob` has no gate on the current status, so
applied to a job whose status is `done` (a terminal state) it rewrites
the status to `failed`, a transition that is not forward along the J1
lattice. -/
theorem FailJob_done_counterexample :
    (FailJob [⟨"j1", "done", "p", RawDoc.empty, none, "t0", "t1"⟩] "t2" "j1"
        "boom").map (·.status) = ["failed"]
    ∧ ¬ statusForward "done" "failed" := by
  exact ⟨rfl, by decide⟩

/-- C2 (amended): `StartJob` and `ClaimJob` move a status only forward
(`pending → in_progress`) and leave every other row unchanged, and
inserting a job only appends a fresh `pending` row; but `CompleteJob`
and `FailJob` set the status unconditionally for every row with the
given id — `FailJob` is not a no-op on terminal jobs, so a `done` job is
rewritten to `failed` when `FailJob` is called on it. -/
theorem jobStatus_transition_spec (db : List JobRow)
    (hnd : (db.map (·.id)).Nodup) :
    (∀ now jobID : String, ∀ i : Nat, ∀ r r',
        db[i]? = some r → (StartJob db now jobID).2[i]? = some r' →
        statusForward r.status r'.status)
    ∧ (∀ now : String, ∀ i : Nat, ∀ r r',
        db[i]? = some r → (ClaimJob db now).2[i]? = some r' →
        statusForward r.status r'.status)
    ∧ (∀ now jobID msg : String, ∀ i : Nat, ∀ r r',
        db[i]? = some r → (FailJob db now jobID msg)[i]? = some r' →
        (r.id ≠ jobID ∧ r' = r) ∨
        (r.id = jobID ∧ r'.status = "failed" ∧ r'.error = some msg ∧
          r'.result = r.result))
    ∧ (∀ (now jobID : String) (res : RawDoc), ∀ i : Nat, ∀ r r',
        db[i]? = some r → (CompleteJob db now jobID res)[i]? = some r' →
        (r.id ≠ jobID ∧ r' = r) ∨
        (r.id = jobID ∧ r'.status = "done" ∧ r'.error = none ∧
          r'.result = res))
    ∧ (∀ payload newId now : String, ∀ i : Nat, i < db.length →
        (InsertJob db payload newId now).2[i]? = db[i]?
        ∧ (InsertJob db payload newId now).1.status = "pending") := by
  refine ⟨?_, ?_, ?_, ?_, ?_⟩
  · intro now jobID i r r' hr hr'
    rw [show (StartJob db now jobID).2 = db.map (startUpdate now jobID)
      from rfl, List.getElem?_map, hr] at hr'
    simp only [Option.map] at hr'
    unfold startUpdate at hr'
    by_cases h : (r.id == jobID && r.status == "pending") = true
    · rw [if_pos h] at hr'
      obtain ⟨-, hst⟩ := (startPred_iff jobID r).mp (by simpa [startPred] using h)
      rw [← Option.some_inj.mp hr', hst]
      exact statusForward_pending_in_progress
    · rw [if_neg h] at hr'
      rw [← Option.some_inj.mp hr']
      exact statusForward_refl _
  · intro now i r r' hr hr'
    unfold ClaimJob at hr'
    cases hs : (db.filter (fun r => r.status == "pending")).insertionSort
        jobCreatedLe with
    | nil =>
      rw [hs] at hr'
      simp only at hr'
      rw [hr] at hr'
      rw [← Option.some_inj.mp hr']
      exact statusForward_refl _
    | cons j rest =>
      rw [hs] at hr'
      simp only [List.getElem?_map, hr, Option.map] at hr'
      have hjdb : j ∈ db ∧ j.status = "pending" := by
        have hmem : j ∈ (db.filter (fun r => r.status == "pending")).insertionSort
            jobCreatedLe := by rw [hs]; exact List.mem_cons_self j rest
        have := (List.perm_insertionSort jobCreatedLe
          (db.filter (fun r => r.status == "pending"))).mem_iff.mp hmem
        obtain ⟨h1, h2⟩ := List.mem_filter.mp this
        exact ⟨h1, by simpa using h2⟩
      by_cases h : (r.id == j.id) = true
      · rw [if_pos h] at hr'
        have hrdb : r ∈ db := List.getElem?_mem hr
        have : r = j := List.inj_on_of_nodup_map hnd hrdb hjdb.1 (by simpa using h)
        rw [← Option.some_inj.mp hr', this, hjdb.2]
        exact statusForward_pending_in_progress
      · rw [if_neg h] at hr'
        rw [← Option.some_inj.mp hr']
        exact statusForward_refl _
  · intro now jobID msg i r r' hr hr'
    rw [show FailJob db now jobID msg = db.map (failUpdate now jobID msg)
      from rfl, List.getElem?_map, hr] at hr'
    simp only [Option.map] at hr'
    unfold failUpdate at hr'
    by_cases h : (r.id == jobID) = true
    · rw [if_pos h] at hr'
      exact Or.inr ⟨by simpa using h, by rw [← Option.some_inj.mp hr'],
        by rw [← Option.some_inj.mp hr'], by rw [← Option.some_inj.mp hr']⟩
    · rw [if_neg h] at hr'
      exact Or.inl ⟨by simpa using h, (Option.some_inj.mp hr').symm⟩
  · intro now jobID res i r r' hr hr'
    rw [show CompleteJob db now jobID res =
      db.map (completeUpdate now jobID res) from rfl,
      List.getElem?_map, hr] at hr'
    simp only [Option.map] at hr'
    unfold completeUpdate at hr'
    by_cases h : (r.id == jobID) = true
    · rw [if_pos h] at hr'
      exact Or.inr ⟨by simpa using h, by rw [← Option.some_inj.mp hr'],
        by rw [← Option.some_inj.mp hr'], by rw [← Option.some_inj.mp hr']⟩
    · rw [if_neg h] at hr'
      exact Or.inl ⟨by simpa using h, (Option.some_inj.mp hr').symm⟩
  · intro payload newId now i hi
    refine ⟨?_, rfl⟩
    show (db ++ [_])[i]? = db[i]?
    rw [List.getElem?_append]
    exact if_pos hi

/-- Witness for the amended C2 at a one-row table: the unconditional
`FailJob` overwrite observed on a `done` row. -/
theorem jobStatus_transition_spec_witness :
    (([⟨"j1", "done", "p", RawDoc.empty, none, "t0", "t1"⟩] :
        List JobRow).map (·.id)).Nodup
    ∧ (((⟨"j1", "done", "p", RawDoc.empty, none, "t0", "t1"⟩ : JobRow).id ≠ "j1"
        ∧ (⟨"j1", "failed", "p", RawDoc.empty, some "boom", "t0", "t2"⟩ : JobRow)
          = ⟨"j1", "done", "p", RawDoc.empty, none, "t0", "t1"⟩)
      ∨ ((⟨"j1", "done", "p", RawDoc.empty, none, "t0", "t1"⟩ : JobRow).id = "j1"
        ∧ (⟨"j1", "failed", "p", RawDoc.empty, some "boom", "t0", "t2"⟩ : JobRow).status = "failed"
        ∧ (⟨"j1", "failed", "p", RawDoc.empty, some "boom", "t0", "t2"⟩ : JobRow).error = some "boom"
        ∧ (⟨"j1", "failed", "p", RawDoc.empty, some "boom", "t0", "t2"⟩ : JobRow).result
          = (⟨"j1", "done", "p", RawDoc.empty, none, "t0", "t1"⟩ : JobRow).result)) :=
  ⟨by decide,
   (jobStatus_transition_spec [⟨"j1", "done", "p", RawDoc.empty, none, "t0", "t1"⟩]
     (by decide)).2.2.1 "t2" "j1" "boom" 0 _ _ rfl rfl⟩

/-! ### Helper lemmas about the outbox batch claim -/

lemma bumpAttempts_getElem? (db : List OutboxRow) (outboxID now : String)
    (i : Nat) (r : OutboxRow) (hr : db[i]? = some r) :
    (bumpAttempts db outboxID now)[i]? =
      some (if r.id == outboxID then
        { r with attempts := r.attempts + 1, updatedAt := now }
      else r) := by
  rw [bumpAttempts, List.getElem?_map, hr]
  rfl

lemma foldl_bump_fields (sel : List OutboxRow) (db : List OutboxRow)
    (now : String) (i : Nat) (r : OutboxRow) (hr : db[i]? = some r) :
    ∃ r', (sel.foldl (fun acc s => bumpAttempts acc s.id now) db)[i]? = some r'
      ∧ r'.id = r.id ∧ r'.jobId = r.jobId ∧ r'.payload = r.payload
      ∧ r'.publishedAt = r.publishedAt ∧ r'.lastError = r.lastError
      ∧ r'.createdAt = r.createdAt
      ∧ r'.attempts = r.attempts + sel.countP (fun s => s.id == r.id)
      ∧ r'.updatedAt =
          (if sel.countP (fun s => s.id == r.id) = 0 then r.updatedAt else now) := by
  induction sel generalizing db r with
  | nil =>
    exact ⟨r, by simpa using hr, rfl, rfl, rfl, rfl, rfl, rfl, by simp, by simp⟩
  | cons s rest ih =>
    have hb := bumpAttempts_getElem? db s.id now i r hr
    by_cases heq : r.id = s.id
    · have h1 : (r.id == s.id) = true := by simpa using heq
      have h2 : (s.id == r.id) = true := by simpa using heq.symm
      rw [if_pos h1] at hb
      obtain ⟨r', hr', hid, hjob, hpay, hpub, hlast, hca, hatt, hupd⟩ :=
        ih (bumpAttempts db s.id now) _ hb
      simp only at hid hjob hpay hpub hlast hca hatt hupd
      refine ⟨r', by simpa using hr', hid, hjob, hpay, hpub, hlast, hca, ?_, ?_⟩
      · rw [List.countP_cons, if_pos h2, hatt]
        omega
      · rw [List.countP_cons, if_pos h2, hupd,
          if_neg (show ¬(rest.countP (fun s => s.id == r.id) + 1 = 0) by omega)]
        split <;> rfl
    · have h1 : ¬((r.id == s.id) = true) := by simpa using heq
      have h2 : ¬((s.id == r.id) = true) := by
        simpa using fun hc => heq hc.symm
      rw [if_neg h1] at hb
      obtain ⟨r', hr', hid, hjob, hpay, hpub, hlast, hca, hatt, hupd⟩ :=
        ih (bumpAttempts db s.id now) _ hb
      refine ⟨r', by simpa using hr', hid, hjob, hpay, hpub, hlast, hca, ?_, ?_⟩
      · rw [List.countP_cons, if_neg h2, hatt]
        omega
      · rw [List.countP_cons, if_neg h2, hupd]
        simp

lemma claimSelect_mem (limit : Int) (db : List OutboxRow) :
    ∀ r ∈ claimSelect limit db, r ∈ db ∧ r.publishedAt = none := by
  intro r hr
  have h1 : r ∈ (db.filter (fun t => t.publishedAt.isNone)).insertionSort
      outboxCreatedLe := List.mem_of_mem_take hr
  have h2 := (List.perm_insertionSort outboxCreatedLe _).mem_iff.mp h1
  obtain ⟨hd, hp⟩ := List.mem_filter.mp h2
  exact ⟨hd, Option.isNone_iff_eq_none.mp hp⟩

lemma claimSelect_length (limit : Int) (db : List OutboxRow) :
    (claimSelect limit db).length ≤ limit.toNat :=
  List.length_take_le _ _

lemma claimSelect_sorted (limit : Int) (db : List OutboxRow) :
    List.Sorted outboxCreatedLe (claimSelect limit db) :=
  List.Pairwise.sublist (List.take_sublist _ _)
    (List.sorted_insertionSort outboxCreatedLe _)

lemma claimSelect_nodup_ids (limit : Int) (db : List OutboxRow)
    (hnd : (db.map (·.id)).Nodup) :
    ((claimSelect limit db).map (·.id)).Nodup := by
  have h1 : ((db.filter (fun t => t.publishedAt.isNone)).map (·.id)).Nodup :=
    List.Sublist.nodup (List.Sublist.map _ (List.filter_sublist db)) hnd
  have h2 : (((db.filter (fun t => t.publishedAt.isNone)).insertionSort
      outboxCreatedLe).map (·.id)).Nodup :=
    ((List.perm_insertionSort outboxCreatedLe _).map (·.id)).symm.nodup h1
  exact List.Sublist.nodup (List.Sublist.map _ (List.take_sublist _ _)) h2

lemma countP_sel_ids (sel : List OutboxRow) (x : String)
    (hnd : (sel.map (·.id)).Nodup) :
    sel.countP (fun s => s.id == x) =
      (if x ∈ sel.map (·.id) then 1 else 0) := by
  have h : sel.countP (fun s => s.id == x) = (sel.map (·.id)).count x := by
    rw [List.count_eq_countP, List.countP_map]
    rfl
  rw [h]
  split
  · exact List.count_eq_one_of_mem hnd (by assumption)
  · exact List.count_eq_zero.mpr (by assumption)

/-- C4: for a positive `limit`, `ClaimOutboxBatch` selects at most
`limit` unpublished rows (`published_at IS NULL`) of the table in
ascending `created_at` order and returns their message projections; it
increments `attempts` and sets `updated_at` on exactly the selected rows
and changes nothing else — in particular it never sets
`published_at`. -/
theorem ClaimOutboxBatch_spec (limit : Int) (now : String)
    (db : List OutboxRow) (hl : 0 < limit) (hnd : (db.map (·.id)).Nodup) :
    (ClaimOutboxBatch limit now db).msgs =
      (claimSelect limit db).map outboxToMessage
    ∧ (ClaimOutboxBatch limit now db).msgs.length ≤ limit.toNat
    ∧ (∀ r ∈ claimSelect limit db, r ∈ db ∧ r.publishedAt = none)
    ∧ List.Sorted outboxCreatedLe (claimSelect limit db)
    ∧ (∀ i : Nat, ∀ r, db[i]? = some r →
        ∃ r', (ClaimOutboxBatch limit now db).db[i]? = some r'
          ∧ r'.publishedAt = r.publishedAt
          ∧ r'.id = r.id ∧ r'.jobId = r.jobId ∧ r'.payload = r.payload
          ∧ r'.lastError = r.lastError ∧ r'.createdAt = r.createdAt
          ∧ (r.id ∈ (claimSelect limit db).map (·.id) →
              r'.attempts = r.attempts + 1 ∧ r'.updatedAt = now)
          ∧ (r.id ∉ (claimSelect limit db).map (·.id) →
              r'.attempts = r.attempts ∧ r'.updatedAt = r.updatedAt)) := by
  have hne : ¬ limit ≤ 0 := not_le.mpr hl
  have hcb : ClaimOutboxBatch limit now db =
      { msgs := (claimSelect limit db).map outboxToMessage,
        db := (claimSelect limit db).foldl
          (fun acc s => bumpAttempts acc s.id now) db,
        beganTx := true } := by
    rw [ClaimOutboxBatch, if_neg hne]
  refine ⟨by rw [hcb], ?_, claimSelect_mem limit db, claimSelect_sorted limit db, ?_⟩
  · rw [hcb]
    simpa using claimSelect_length limit db
  · intro i r hr
    obtain ⟨r', hr', hid, hjob, hpay, hpub, hlast, hca, hatt, hupd⟩ :=
      foldl_bump_fields (claimSelect limit db) db now i r hr
    rw [countP_sel_ids _ _ (claimSelect_nodup_ids limit db hnd)] at hatt hupd
    refine ⟨r', by rw [hcb]; exact hr', hpub, hid, hjob, hpay, hlast, hca, ?_, ?_⟩
    · intro hmem
      rw [if_pos hmem] at hatt hupd
      exact ⟨hatt, by simpa using hupd⟩
    · intro hmem
      rw [if_neg hmem] at hatt hupd
      exact ⟨by simpa using hatt, by simpa using hupd⟩

/-- Witness for C4: a two-row table with one published and one
unpublished row, limit 5. -/
theorem ClaimOutboxBatch_spec_witness :
    (0 : Int) < 5
    ∧ (ClaimOutboxBatch 5 "t1"
        [⟨"o1", "j1", "p1", none, 0, none, "t0", "t0"⟩,
         ⟨"o2", "j2", "p2", some "t9", 3, none, "t0", "t0"⟩]).msgs =
      (claimSelect 5
        [⟨"o1", "j1", "p1", none, 0, none, "t0", "t0"⟩,
         ⟨"o2", "j2", "p2", some "t9", 3, none, "t0", "t0"⟩]).map outboxToMessage :=
  ⟨by decide,
   (ClaimOutboxBatch_spec 5 "t1"
     [⟨"o1", "j1", "p1", none, 0, none, "t0", "t0"⟩,
      ⟨"o2", "j2", "p2", some "t9", 3, none, "t0", "t0"⟩]
     (by decide) (by decide)).1⟩

/-- C10: for `limit ≤ 0`, `ClaimOutboxBatch` returns the guard value —
no messages, the table untouched, and no transaction begun (the Go
function returns `nil, nil` before `BeginTx`). -/
theorem ClaimOutboxBatch_nonpositive_spec (limit : Int) (now : String)
    (db : List OutboxRow) (h : limit ≤ 0) :
    ClaimOutboxBatch limit now db =
      { msgs := [], db := db, beganTx := false } := by
  rw [ClaimOutboxBatch, if_pos h]

/-- Witness for C10 at `limit = 0` on a one-row table. -/
theorem ClaimOutboxBatch_nonpositive_spec_witness :
    (0 : Int) ≤ 0
    ∧ ClaimOutboxBatch 0 "t1" [⟨"o1", "j1", "p1", none, 2, none, "t0", "t0"⟩] =
      { msgs := [],
        db := [⟨"o1", "j1", "p1", none, 2, none, "t0", "t0"⟩],
        beganTx := false } :=
  ⟨by decide,
   ClaimOutboxBatch_nonpositive_spec 0 "t1"
     [⟨"o1", "j1", "p1", none, 2, none, "t0", "t0"⟩] (by decide)⟩

/-- C5: under every store operation on the outbox table, a row's
`published_at`, once non-null, stays non-null, and `attempts` never
decreases; `RecordOutboxError` changes only `last_error` and
`updated_at` — every other column, `published_at` and `attempts`
included, is preserved. -/
theorem outbox_monotone_spec (db : List OutboxRow) (op : OutboxOp) (i : Nat)
    (r : OutboxRow) (hr : db[i]? = some r) :
    ∃ r', (applyOutboxOp db op)[i]? = some r'
      ∧ (r.publishedAt.isSome = true → r'.publishedAt.isSome = true)
      ∧ r.attempts ≤ r'.attempts
      ∧ (∀ oid msg now : String, op = OutboxOp.recordError oid msg now →
          r'.publishedAt = r.publishedAt ∧ r'.attempts = r.attempts
          ∧ r'.id = r.id ∧ r'.jobId = r.jobId ∧ r'.payload = r.payload
          ∧ r'.createdAt = r.createdAt) := by
  cases op with
  | claimBatch limit now =>
    by_cases hlim : limit ≤ 0
    · refine ⟨r, ?_, fun h => h, le_refl _, ?_⟩
      · show (ClaimOutboxBatch limit now db).db[i]? = some r
        rw [ClaimOutboxBatch, if_pos hlim]
        exact hr
      · intro oid msg now' heq
        exact OutboxOp.noConfusion heq
    · obtain ⟨r', hr', _, _, _, hpub, _, _, hatt, _⟩ :=
        foldl_bump_fields (claimSelect limit db) db now i r hr
      refine ⟨r', ?_, ?_, ?_, ?_⟩
      · show (ClaimOutboxBatch limit now db).db[i]? = some r'
        rw [ClaimOutboxBatch, if_neg hlim]
        exact hr'
      · rw [hpub]
        exact fun h => h
      · rw [hatt]
        omega
      · intro oid msg now' heq
        exact OutboxOp.noConfusion heq
  | markPublished oid now =>
    show ∃ r', (MarkOutboxPublished db oid now)[i]? = some r' ∧ _
    rw [MarkOutboxPublished, List.getElem?_map, hr]
    by_cases h : (r.id == oid) = true
    · refine ⟨_, by rw [Option.map, if_pos h], ?_, ?_, ?_⟩
      · intro
        rfl
      · exact le_refl _
      · intro oid' msg' now' heq
        exact OutboxOp.noConfusion heq
    · refine ⟨r, by rw [Option.map, if_neg h], fun hh => hh, le_refl _, ?_⟩
      intro oid' msg' now' heq
      exact OutboxOp.noConfusion heq
  | recordError oid msg now =>
    show ∃ r', (RecordOutboxError db oid msg now)[i]? = some r' ∧ _
    rw [RecordOutboxError, List.getElem?_map, hr]
    by_cases h : (r.id == oid) = true
    · exact ⟨{ r with lastError := some msg, updatedAt := now },
        by rw [Option.map, if_pos h], fun hh => hh, le_refl _,
        fun _ _ _ _ => ⟨rfl, rfl, rfl, rfl, rfl, rfl⟩⟩
    · exact ⟨r, by rw [Option.map, if_neg h], fun hh => hh, le_refl _,
        fun _ _ _ _ => ⟨rfl, rfl, rfl, rfl, rfl, rfl⟩⟩
  | insert outboxId jobId payload now =>
    have hi : i < db.length := (List.getElem?_eq_some.mp hr).1
    refine ⟨r, ?_, fun hh => hh, le_refl _, ?_⟩
    · show (db ++ [mkOutboxRow outboxId jobId payload now])[i]? = some r
      rw [List.getElem?_append, if_pos hi]
      exact hr
    · intro oid' msg' now' heq
      exact OutboxOp.noConfusion heq

/-- Witness for C5: `RecordOutboxError` applied to a published one-row
table preserves `published_at` and `attempts`. -/
theorem outbox_monotone_spec_witness :
    ∃ r', (applyOutboxOp [⟨"o1", "j1", "p1", some "t5", 4, none, "t0", "t0"⟩]
        (OutboxOp.recordError "o1" "boom" "t6"))[0]? = some r'
      ∧ ((⟨"o1", "j1", "p1", some "t5", 4, none, "t0", "t0"⟩ :
          OutboxRow).publishedAt.isSome = true →
          r'.publishedAt.isSome = true)
      ∧ (⟨"o1", "j1", "p1", some "t5", 4, none, "t0", "t0"⟩ :
          OutboxRow).attempts ≤ r'.attempts
      ∧ (∀ oid msg now : String,
          OutboxOp.recordError "o1" "boom" "t6" =
            OutboxOp.recordError oid msg now →
          r'.publishedAt = (⟨"o1", "j1", "p1", some "t5", 4, none, "t0",
            "t0"⟩ : OutboxRow).publishedAt
          ∧ r'.attempts = 4 ∧ r'.id = "o1" ∧ r'.jobId = "j1"
          ∧ r'.payload = "p1" ∧ r'.createdAt = "t0") :=
  outbox_monotone_spec [⟨"o1", "j1", "p1", some "t5", 4, none, "t0", "t0"⟩]
    (OutboxOp.recordError "o1" "boom" "t6") 0
    ⟨"o1", "j1", "p1", some "t5", 4, none, "t0", "t0"⟩ rfl

/-! ### Ingest handler -/

/-- C3: with an `Idempotency-Key` header on a valid body — if the key is
stored and the stored hash equals the hash of the new raw body, the
response is 200 referencing the previously created job (the stored
`job_id`), the store is unchanged and no publish is attempted; if the
key is stored with a different hash, the response is 409; with a fresh
key the response is 201, a publish is attempted, and exactly one new
pending job is created. -/
theorem PostJobsImageCrop_idempotency_spec (st : Store)
    (req : ImageCropRequest)
    (bodyHash idemKey newJobId newOutboxId now : String)
    (publishErr : Option String)
    (hurl : req.imageUrl ≠ "") (hw : 0 < req.width) (hh : 0 < req.height)
    (hkey : idemKey ≠ "") :
    (∀ rec, st.idem.find? (fun rc => rc.key == idemKey) = some rec →
        rec.requestHash = bodyHash →
        ∀ j, GetJob st.jobs rec.jobId = some j →
        j.id = rec.jobId
        ∧ PostJobsImageCrop st req bodyHash idemKey newJobId newOutboxId now
            publishErr =
          { status := 200, jobId := some j.id, store := st,
            publishAttempted := false })
    ∧ (∀ rec, st.idem.find? (fun rc => rc.key == idemKey) = some rec →
        rec.requestHash ≠ bodyHash →
        PostJobsImageCrop st req bodyHash idemKey newJobId newOutboxId now
            publishErr =
          { status := 409, jobId := none, store := st,
            publishAttempted := false })
    ∧ (st.idem.find? (fun rc => rc.key == idemKey) = none →
        (PostJobsImageCrop st req bodyHash idemKey newJobId newOutboxId now
            publishErr).status = 201
        ∧ (PostJobsImageCrop st req bodyHash idemKey newJobId newOutboxId now
            publishErr).jobId = some newJobId
        ∧ (PostJobsImageCrop st req bodyHash idemKey newJobId newOutboxId now
            publishErr).publishAttempted = true
        ∧ (PostJobsImageCrop st req bodyHash idemKey newJobId newOutboxId now
            publishErr).store.jobs = st.jobs ++
          [{ id := newJobId, status := "pending",
             payload := encodePayload req, result := RawDoc.empty,
             error := none, createdAt := now, updatedAt := now }]) := by
  have h1 : ¬((req.imageUrl == "") = true) := by simpa using hurl
  have h2 : ¬(req.width ≤ 0 ∨ req.height ≤ 0) := by
    push_neg
    exact ⟨hw, hh⟩
  have h3 : (idemKey != "") = true := by simpa using hkey
  refine ⟨?_, ?_, ?_⟩
  · intro rec hfind hhash j hget
    have hjid : j.id = rec.jobId := by
      have := List.find?_some hget
      simpa using this
    refine ⟨hjid, ?_⟩
    unfold PostJobsImageCrop
    rw [if_neg h1, if_neg h2, if_pos h3]
    unfold InsertJobWithOutboxAndIdempotency
    rw [hfind]
    simp only [hget, if_pos (show (rec.requestHash == bodyHash) = true by
      simpa using hhash)]
    rw [if_pos trivial]
  · intro rec hfind hhash
    unfold PostJobsImageCrop
    rw [if_neg h1, if_neg h2, if_pos h3]
    unfold InsertJobWithOutboxAndIdempotency
    rw [hfind]
    simp only [if_neg (show ¬((rec.requestHash == bodyHash) = true) by
      simpa using hhash)]
  · intro hfind
    unfold PostJobsImageCrop
    rw [if_neg h1, if_neg h2, if_pos h3]
    unfold InsertJobWithOutboxAndIdempotency
    rw [hfind]
    simp only [InsertJobWithOutbox]
    refine ⟨rfl, rfl, rfl, ?_⟩
    cases publishErr <;> rfl

/-- Witness for C3: a store holding key `K1` with hash `h1` bound to job
`jobX`; replaying `K1` with the same hash returns 200 with `jobX`, an
unchanged store, and no publish attempt. -/
theorem PostJobsImageCrop_idempotency_spec_witness :
    ("http://x/a.jpg" : String) ≠ ""
    ∧ (0 : Int) < 10
    ∧ ("K1" : String) ≠ ""
    ∧ ((⟨"jobX", "pending", "pl", RawDoc.empty, none, "t0", "t0"⟩ :
          JobRow).id =
        (⟨"K1", "h1", "jobX", "t0"⟩ : IdempotencyRecord).jobId
      ∧ PostJobsImageCrop
          ⟨[⟨"jobX", "pending", "pl", RawDoc.empty, none, "t0", "t0"⟩], [],
           [⟨"K1", "h1", "jobX", "t0"⟩]⟩
          ⟨"http://x/a.jpg", 0, 0, 10, 10⟩ "h1" "K1" "jN" "oN" "t1" none =
        { status := 200,
          jobId := some (⟨"jobX", "pending", "pl", RawDoc.empty, none, "t0",
            "t0"⟩ : JobRow).id,
          store := ⟨[⟨"jobX", "pending", "pl", RawDoc.empty, none, "t0",
            "t0"⟩], [], [⟨"K1", "h1", "jobX", "t0"⟩]⟩,
          publishAttempted := false }) :=
  ⟨by decide, by decide, by decide,
   (PostJobsImageCrop_idempotency_spec
     ⟨[⟨"jobX", "pending", "pl", RawDoc.empty, none, "t0", "t0"⟩], [],
      [⟨"K1", "h1", "jobX", "t0"⟩]⟩
     ⟨"http://x/a.jpg", 0, 0, 10, 10⟩ "h1" "K1" "jN" "oN" "t1" none
     (by decide) (by decide) (by decide) (by decide)).1
     ⟨"K1", "h1", "jobX", "t0"⟩ rfl rfl
     ⟨"jobX", "pending", "pl", RawDoc.empty, none, "t0", "t0"⟩ rfl⟩

/-- C6 counterexample: a request whose `imageUrl` has scheme `ftp` but
whose dimensions are valid is not rejected — the handler performs no
URL-scheme check, responds 201 and creates a job. -/
theorem PostJobsImageCrop_nonhttp_counterexample :
    (PostJobsImageCrop ⟨[], [], []⟩ ⟨"ftp://example.com/a.jpg", 0, 0, 10, 10⟩
        "h" "" "j1" "o1" "t0" none).status = 201
    ∧ (PostJobsImageCrop ⟨[], [], []⟩ ⟨"ftp://example.com/a.jpg", 0, 0, 10, 10⟩
        "h" "" "j1" "o1" "t0" none).status ≠ 400
    ∧ (PostJobsImageCrop ⟨[], [], []⟩ ⟨"ftp://example.com/a.jpg", 0, 0, 10, 10⟩
        "h" "" "j1" "o1" "t0" none).store.jobs.length = 1 := by
  refine ⟨by decide, by decide, by decide⟩

/-- C6 (amended): `POST /jobs/image-crop` responds 400, creating no job
and attempting no publish, exactly when `imageUrl` is empty (missing),
`width ≤ 0` or `height ≤ 0`; the handler does not inspect the URL
scheme, so a non-http(s) `imageUrl` with valid dimensions is accepted
and a job is created (the scheme is enforced only later, by the worker's
fetcher). -/
theorem PostJobsImageCrop_validation_spec (st : Store)
    (req : ImageCropRequest)
    (bodyHash idemKey newJobId newOutboxId now : String)
    (publishErr : Option String) :
    ((PostJobsImageCrop st req bodyHash idemKey newJobId newOutboxId now
        publishErr).status = 400
      ↔ (req.imageUrl = "" ∨ req.width ≤ 0 ∨ req.height ≤ 0))
    ∧ ((req.imageUrl = "" ∨ req.width ≤ 0 ∨ req.height ≤ 0) →
        PostJobsImageCrop st req bodyHash idemKey newJobId newOutboxId now
            publishErr =
          { status := 400, jobId := none, store := st,
            publishAttempted := false }) := by
  by_cases h1 : (req.imageUrl == "") = true
  · have hurl : req.imageUrl = "" := by simpa using h1
    constructor
    · rw [show PostJobsImageCrop st req bodyHash idemKey newJobId newOutboxId
          now publishErr =
        { status := 400, jobId := none, store := st,
          publishAttempted := false } by unfold PostJobsImageCrop; rw [if_pos h1]]
      exact ⟨fun _ => Or.inl hurl, fun _ => rfl⟩
    · intro _
      unfold PostJobsImageCrop
      rw [if_pos h1]
  · have hurl : ¬(req.imageUrl = "") := by simpa using h1
    by_cases h2 : req.width ≤ 0 ∨ req.height ≤ 0
    · constructor
      · rw [show PostJobsImageCrop st req bodyHash idemKey newJobId newOutboxId
            now publishErr =
          { status := 400, jobId := none, store := st,
            publishAttempted := false } by
          unfold PostJobsImageCrop; rw [if_neg h1, if_pos h2]]
        exact ⟨fun _ => Or.inr h2, fun _ => rfl⟩
      · intro _
        unfold PostJobsImageCrop
        rw [if_neg h1, if_pos h2]
    · have hrhs : ¬(req.imageUrl = "" ∨ req.width ≤ 0 ∨ req.height ≤ 0) := by
        rw [not_or]
        exact ⟨hurl, h2⟩
      constructor
      · constructor
        · intro h400
          exfalso
          unfold PostJobsImageCrop at h400
          rw [if_neg h1, if_neg h2] at h400
          by_cases h3 : (idemKey != "") = true
          · rw [if_pos h3] at h400
            cases hE : InsertJobWithOutboxAndIdempotency st (encodePayload req)
                idemKey bodyHash newJobId newOutboxId now with
            | error e =>
              rw [hE] at h400
              cases e <;> simp at h400
            | ok res =>
              rw [hE] at h400
              cases h4 : res.reused <;> simp [h4] at h400
          · rw [if_neg h3] at h400
            simp at h400
        · intro hc
          exact absurd hc hrhs
      · intro hc
        exact absurd hc hrhs

/-- Witness for the amended C6: a `width = 0` request is rejected with
400 and creates nothing. -/
theorem PostJobsImageCrop_validation_spec_witness :
    PostJobsImageCrop ⟨[], [], []⟩ ⟨"http://x/a.jpg", 0, 0, 0, 10⟩
        "h" "" "j1" "o1" "t0" none =
      { status := 400, jobId := none, store := ⟨[], [], []⟩,
        publishAttempted := false } :=
  (PostJobsImageCrop_validation_spec ⟨[], [], []⟩
    ⟨"http://x/a.jpg", 0, 0, 0, 10⟩ "h" "" "j1" "o1" "t0" none).2
    (Or.inr (Or.inl (by decide)))

/-! ### Worker handler helper lemmas -/

lemma GetJob_map_of_id_preserving (db : List JobRow) (f : JobRow → JobRow)
    (hf : ∀ r, (f r).id = r.id) (jobID : String) :
    GetJob (db.map f) jobID = (GetJob db jobID).map f := by
  unfold GetJob
  rw [List.find?_map]
  have hfe : ((fun r : JobRow => r.id == jobID) ∘ f) =
      (fun r : JobRow => r.id == jobID) := by
    funext r
    simp [Function.comp, hf]
  rw [hfe]

lemma GetJob_isSome_of_mem (db : List JobRow) (j : JobRow) (hmem : j ∈ db) :
    ∃ r, GetJob db j.id = some r ∧ r.id = j.id := by
  have hs : (GetJob db j.id).isSome = true := by
    unfold GetJob
    exact List.find?_isSome.mpr ⟨j, hmem, by simp⟩
  obtain ⟨r, hr⟩ := Option.isSome_iff_exists.mp hs
  refine ⟨r, hr, ?_⟩
  have := List.find?_some hr
  simpa using this

lemma StartJob_not_claimed_eq (db : List JobRow) (now jobID : String)
    (hnd : (db.map (·.id)).Nodup) (hfalse : (StartJob db now jobID).1 = false) :
    (StartJob db now jobID).2 = db := by
  have hc : db.countP (startPred jobID) ≠ 1 := by
    intro hc
    rw [StartJob_fst, hc] at hfalse
    simp at hfalse
  have hle := countP_id_le_one db jobID hnd
  have hz : db.countP (startPred jobID) = 0 := by omega
  have hnp : ∀ r ∈ db, ¬(r.id = jobID ∧ r.status = "pending") := by
    intro r hr hcon
    have := List.countP_eq_zero.mp hz r hr
    exact this ((startPred_iff jobID r).mpr hcon)
  exact (StartJob_false_of_no_pending db now jobID hnp).2

lemma handle_not_claimed (db : List JobRow) (now jobID : String)
    (outcome : Except String RawDoc)
    (hnd : (db.map (·.id)).Nodup) (hfalse : (StartJob db now jobID).1 = false) :
    handlePubSubJobs db now jobID outcome = (200, db) := by
  have hsnd := StartJob_not_claimed_eq db now jobID hnd hfalse
  simp [handlePubSubJobs, hfalse, hsnd]

lemma handle_claimed (db : List JobRow) (now jobID : String)
    (outcome : Except String RawDoc)
    (hclaim : (StartJob db now jobID).1 = true)
    (jobRow : JobRow)
    (hget : GetJob (StartJob db now jobID).2 jobID = some jobRow) :
    handlePubSubJobs db now jobID outcome =
      (match outcome with
       | Except.error e => (500, FailJob (StartJob db now jobID).2 now jobRow.id e)
       | Except.ok result =>
          (200, CompleteJob (StartJob db now jobID).2 now jobRow.id result)) := by
  simp only [handlePubSubJobs, hclaim, Bool.not_true, hget]
  rfl

lemma startUpdate_id (now jobID : String) (r : JobRow) :
    (startUpdate now jobID r).id = r.id := by
  unfold startUpdate
  split <;> rfl

lemma completeUpdate_id (now jobID : String) (res : RawDoc) (r : JobRow) :
    (completeUpdate now jobID res r).id = r.id := by
  unfold completeUpdate
  split <;> rfl

lemma failUpdate_id (now jobID errMsg : String) (r : JobRow) :
    (failUpdate now jobID errMsg r).id = r.id := by
  unfold failUpdate
  split <;> rfl

/-- C7: if `StartJob` reports the job as not claimed, the worker handler
responds 200 and performs no store mutation at all (no `CompleteJob`, no
`FailJob`); consequently, when the same message is delivered twice
(serialized by the row lock), the first delivery completes the job to
`done` and responds 200, and the second also responds 200 while leaving
the table untouched — the job reaches `done` exactly once. -/
theorem worker_duplicate_delivery_spec (db : List JobRow) (j : JobRow)
    (res : RawDoc) (now1 now2 : String)
    (hnd : (db.map (·.id)).Nodup) (hmem : j ∈ db)
    (hpend : j.status = "pending") :
    (∀ (db2 : List JobRow) (now jobID : String)
        (outcome : Except String RawDoc),
        (db2.map (·.id)).Nodup → (StartJob db2 now jobID).1 = false →
        handlePubSubJobs db2 now jobID outcome = (200, db2))
    ∧ (handlePubSubJobs db now1 j.id (Except.ok res)).1 = 200
    ∧ (∃ r, GetJob (handlePubSubJobs db now1 j.id (Except.ok res)).2 j.id =
        some r ∧ r.status = "done")
    ∧ handlePubSubJobs (handlePubSubJobs db now1 j.id (Except.ok res)).2 now2
        j.id (Except.ok res) =
      (200, (handlePubSubJobs db now1 j.id (Except.ok res)).2) := by
  have hclaim : (StartJob db now1 j.id).1 = true :=
    (StartJob_fst_true_iff db now1 j.id hnd).mpr ⟨j, hmem, rfl, hpend⟩
  obtain ⟨r0, hr0, hr0id⟩ := GetJob_isSome_of_mem db j hmem
  have hr0j : r0 = j :=
    List.inj_on_of_nodup_map hnd (List.mem_of_find?_eq_some hr0) hmem hr0id
  have hj1 : startUpdate now1 j.id j =
      { j with status := "in_progress", updatedAt := now1 } := by
    unfold startUpdate
    rw [if_pos (by simp [hpend])]
  have hget1 : GetJob (StartJob db now1 j.id).2 j.id =
      some { j with status := "in_progress", updatedAt := now1 } := by
    show GetJob (db.map (startUpdate now1 j.id)) j.id = _
    rw [GetJob_map_of_id_preserving db _ (startUpdate_id now1 j.id), hr0, hr0j]
    simp only [Option.map]
    rw [hj1]
  have h1 : handlePubSubJobs db now1 j.id (Except.ok res) =
      (200, CompleteJob (StartJob db now1 j.id).2 now1 j.id res) :=
    handle_claimed db now1 j.id (Except.ok res) hclaim
      { j with status := "in_progress", updatedAt := now1 } hget1
  have hdb2 : CompleteJob (StartJob db now1 j.id).2 now1 j.id res =
      db.map (completeUpdate now1 j.id res ∘ startUpdate now1 j.id) := by
    show (db.map (startUpdate now1 j.id)).map (completeUpdate now1 j.id res)
      = _
    rw [List.map_map]
  have hcompid : ∀ r : JobRow,
      ((completeUpdate now1 j.id res ∘ startUpdate now1 j.id) r).id = r.id := by
    intro r
    show (completeUpdate now1 j.id res (startUpdate now1 j.id r)).id = r.id
    rw [completeUpdate_id, startUpdate_id]
  have hids2 : (CompleteJob (StartJob db now1 j.id).2 now1 j.id res).map
      (·.id) = db.map (·.id) := by
    rw [hdb2, List.map_map]
    exact List.map_congr_left (fun a _ => hcompid a)
  have hjdone : (completeUpdate now1 j.id res ∘ startUpdate now1 j.id) j =
      { j with status := "done", result := res, error := none,
               updatedAt := now1 } := by
    show completeUpdate now1 j.id res (startUpdate now1 j.id j) = _
    rw [hj1]
    unfold completeUpdate
    rw [if_pos (by simp)]
  have hget2 : GetJob (CompleteJob (StartJob db now1 j.id).2 now1 j.id res)
      j.id = some { j with status := "done", result := res, error := none,
                           updatedAt := now1 } := by
    rw [hdb2, GetJob_map_of_id_preserving db _ hcompid, hr0, hr0j]
    simp only [Option.map]
    rw [hjdone]
  have hnp2 : ∀ r ∈ CompleteJob (StartJob db now1 j.id).2 now1 j.id res,
      ¬(r.id = j.id ∧ r.status = "pending") := by
    rw [hdb2]
    intro r hr hcon
    obtain ⟨a, ha, rfl⟩ := List.mem_map.mp hr
    by_cases haid : a.id = j.id
    · have haj : a = j := List.inj_on_of_nodup_map hnd ha hmem haid
      subst haj
      rw [hjdone] at hcon
      exact absurd hcon.2 (by simp)
    · exact haid ((hcompid a).symm.trans hcon.1)
  have hfalse2 : (StartJob (CompleteJob (StartJob db now1 j.id).2 now1 j.id
      res) now2 j.id).1 = false :=
    (StartJob_false_of_no_pending _ now2 j.id hnp2).1
  refine ⟨fun db' now jid outc hnd' hf =>
    handle_not_claimed db' now jid outc hnd' hf, ?_, ?_, ?_⟩
  · rw [h1]
  · rw [h1]
    exact ⟨_, hget2, rfl⟩
  · rw [h1]
    show handlePubSubJobs (CompleteJob (StartJob db now1 j.id).2 now1 j.id
      res) now2 j.id (Except.ok res) = _
    exact handle_not_claimed _ now2 j.id (Except.ok res)
      (by rw [hids2]; exact hnd) hfalse2

/-- Witness for C7 at a one-row pending table: both deliveries return
200 and the job is `done` after the first. -/
theorem worker_duplicate_delivery_spec_witness :
    (([⟨"j1", "pending", "p", RawDoc.empty, none, "t0", "t0"⟩] :
        List JobRow).map (·.id)).Nodup
    ∧ (⟨"j1", "pending", "p", RawDoc.empty, none, "t0", "t0"⟩ : JobRow) ∈
        ([⟨"j1", "pending", "p", RawDoc.empty, none, "t0", "t0"⟩] :
          List JobRow)
    ∧ (handlePubSubJobs [⟨"j1", "pending", "p", RawDoc.empty, none, "t0", "t0"⟩]
        "t1" (⟨"j1", "pending", "p", RawDoc.empty, none, "t0", "t0"⟩ :
          JobRow).id (Except.ok RawDoc.empty)).1 = 200 :=
  ⟨by decide, by simp,
   (worker_duplicate_delivery_spec
     [⟨"j1", "pending", "p", RawDoc.empty, none, "t0", "t0"⟩]
     ⟨"j1", "pending", "p", RawDoc.empty, none, "t0", "t0"⟩
     RawDoc.empty "t1" "t2" (by decide) (by simp) rfl).2.1⟩

lemma wrap64_eq_self (n : Int) (h1 : -(2 ^ 63) ≤ n) (h2 : n < 2 ^ 63) :
    wrap64 n = n := by
  unfold wrap64
  have h3 : (0 : Int) ≤ n + 2 ^ 63 := by omega
  have h4 : n + 2 ^ 63 < 2 ^ 64 := by omega
  rw [Int.emod_eq_of_lt h3 h4]
  omega

/-- C8 counterexample: at a rectangle whose `x` is near the maximum Go
`int`, the Go addition `crop.X+crop.Width` wraps to a negative value, so
the bounds check passes and `CropImage` succeeds on a 10×10 image even
though `x + width` (as an unbounded integer) far exceeds the image
width — the original claim's "fails exactly when" is false there. -/
theorem CropImage_overflow_counterexample :
    (0 : Int) < 10 ∧ (0 : Int) < 5
    ∧ (0 : Int) ≤ 2 ^ 63 - 6 ∧ (0 : Int) ≤ 0
    ∧ (10 : Int) < (2 ^ 63 - 6) + 10
    ∧ CropImage 10 10 ⟨2 ^ 63 - 6, 0, 10, 5⟩ = Except.ok (10, 5)
    ∧ CropImage 10 10 ⟨2 ^ 63 - 6, 0, 10, 5⟩ ≠
        Except.error "crop rectangle exceeds image bounds" := by
  refine ⟨by decide, by decide, by decide, by decide, by decide, ?_, ?_⟩
  · decide
  · decide

/-- C8 (amended): for a crop rectangle with positive width and height,
non-negative offsets, and sums `x + width` and `y + height` within the
Go `int` range (no overflow), `CropImage` fails with exactly the error
text "crop rectangle exceeds image bounds" iff `x + width` exceeds the
image width or `y + height` exceeds the image height (when a sum
overflows, the Go addition wraps and the check can pass instead); and
when the pipeline fails with that error on a job the worker has
claimed, the worker records the job as `failed` with that error text
(and responds 500). -/
theorem CropImage_bounds_spec (imgW imgH : Int) (c : Crop)
    (hw : 0 < c.width) (hh : 0 < c.height) (hx : 0 ≤ c.x) (hy : 0 ≤ c.y)
    (hxw : c.x + c.width < 2 ^ 63) (hyh : c.y + c.height < 2 ^ 63) :
    (CropImage imgW imgH c =
        Except.error "crop rectangle exceeds image bounds"
      ↔ (imgW < c.x + c.width ∨ imgH < c.y + c.height))
    ∧ (∀ e : String, CropImage imgW imgH c = Except.error e →
        ∀ (db : List JobRow) (j : JobRow) (now : String),
        (db.map (·.id)).Nodup → j ∈ db → j.status = "pending" →
        (handlePubSubJobs db now j.id (Except.error e)).1 = 500
        ∧ ∃ r, GetJob (handlePubSubJobs db now j.id (Except.error e)).2 j.id
            = some r ∧ r.status = "failed" ∧ r.error = some e) := by
  have hinv : ¬(c.width ≤ 0 ∨ c.height ≤ 0 ∨ c.x < 0 ∨ c.y < 0) := by
    push_neg
    exact ⟨hw, hh, hx, hy⟩
  have hwx : wrap64 (c.x + c.width) = c.x + c.width :=
    wrap64_eq_self _ (by omega) hxw
  have hwy : wrap64 (c.y + c.height) = c.y + c.height :=
    wrap64_eq_self _ (by omega) hyh
  constructor
  · rw [CropImage, if_neg hinv, hwx, hwy]
    constructor
    · intro h
      by_cases hb : c.x + c.width > imgW ∨ c.y + c.height > imgH
      · exact hb
      · rw [if_neg hb] at h
        exact Except.noConfusion h
    · intro hb
      rw [if_pos hb]
  · intro e _ db j now hnd hmem hpend
    have hclaim : (StartJob db now j.id).1 = true :=
      (StartJob_fst_true_iff db now j.id hnd).mpr ⟨j, hmem, rfl, hpend⟩
    obtain ⟨r0, hr0, hr0id⟩ := GetJob_isSome_of_mem db j hmem
    have hr0j : r0 = j :=
      List.inj_on_of_nodup_map hnd (List.mem_of_find?_eq_some hr0) hmem hr0id
    have hj1 : startUpdate now j.id j =
        { j with status := "in_progress", updatedAt := now } := by
      unfold startUpdate
      rw [if_pos (by simp [hpend])]
    have hget1 : GetJob (StartJob db now j.id).2 j.id =
        some { j with status := "in_progress", updatedAt := now } := by
      show GetJob (db.map (startUpdate now j.id)) j.id = _
      rw [GetJob_map_of_id_preserving db _ (startUpdate_id now j.id), hr0,
        hr0j]
      simp only [Option.map]
      rw [hj1]
    have h1 : handlePubSubJobs db now j.id (Except.error e) =
        (500, FailJob (StartJob db now j.id).2 now j.id e) :=
      handle_claimed db now j.id (Except.error e) hclaim
        { j with status := "in_progress", updatedAt := now } hget1
    have hdb2 : FailJob (StartJob db now j.id).2 now j.id e =
        db.map (failUpdate now j.id e ∘ startUpdate now j.id) := by
      show (db.map (startUpdate now j.id)).map (failUpdate now j.id e) = _
      rw [List.map_map]
    have hfid : ∀ r : JobRow,
        ((failUpdate now j.id e ∘ startUpdate now j.id) r).id = r.id := by
      intro r
      show (failUpdate now j.id e (startUpdate now j.id r)).id = r.id
      rw [failUpdate_id, startUpdate_id]
    have hjfail : (failUpdate now j.id e ∘ startUpdate now j.id) j =
        { j with status := "failed", error := some e, updatedAt := now } := by
      show failUpdate now j.id e (startUpdate now j.id j) = _
      rw [hj1]
      unfold failUpdate
      rw [if_pos (by simp)]
    have hget2 : GetJob (FailJob (StartJob db now j.id).2 now j.id e) j.id =
        some { j with status := "failed", error := some e,
                      updatedAt := now } := by
      rw [hdb2, GetJob_map_of_id_preserving db _ hfid, hr0, hr0j]
      simp only [Option.map]
      rw [hjfail]
    refine ⟨by rw [h1], ?_⟩
    rw [h1]
    exact ⟨_, hget2, rfl, rfl⟩

/-- Witness for C8: the spec's literal scenario — crop
`{x:5, y:5, width:10, height:10}` on a 10×10 image fails with the
out-of-bounds error, and a worker delivery carrying that failure marks a
one-row pending table failed with the same text. -/
theorem CropImage_bounds_spec_witness :
    (0 : Int) < 10 ∧ (0 : Int) ≤ 5 ∧ (5 : Int) + 10 < 2 ^ 63
    ∧ (CropImage 10 10 ⟨5, 5, 10, 10⟩ =
        Except.error "crop rectangle exceeds image bounds"
      ↔ ((10 : Int) < 5 + 10 ∨ (10 : Int) < 5 + 10))
    ∧ ((handlePubSubJobs
        [⟨"j1", "pending", "p", RawDoc.empty, none, "t0", "t0"⟩] "t1"
        (⟨"j1", "pending", "p", RawDoc.empty, none, "t0", "t0"⟩ : JobRow).id
        (Except.error "crop rectangle exceeds image bounds")).1 = 500
      ∧ ∃ r, GetJob (handlePubSubJobs
          [⟨"j1", "pending", "p", RawDoc.empty, none, "t0", "t0"⟩] "t1"
          (⟨"j1", "pending", "p", RawDoc.empty, none, "t0", "t0"⟩ :
            JobRow).id
          (Except.error "crop rectangle exceeds image bounds")).2
          (⟨"j1", "pending", "p", RawDoc.empty, none, "t0", "t0"⟩ :
            JobRow).id = some r
        ∧ r.status = "failed"
        ∧ r.error = some "crop rectangle exceeds image bounds") :=
  ⟨by decide, by decide, by decide,
   (CropImage_bounds_spec 10 10 ⟨5, 5, 10, 10⟩
     (by decide) (by decide) (by decide) (by decide)
     (by decide) (by decide)).1,
   (CropImage_bounds_spec 10 10 ⟨5, 5, 10, 10⟩
     (by decide) (by decide) (by decide) (by decide)
     (by decide) (by decide)).2
     "crop rectangle exceeds image bounds" (by decide)
     [⟨"j1", "pending", "p", RawDoc.empty, none, "t0", "t0"⟩]
     ⟨"j1", "pending", "p", RawDoc.empty, none, "t0", "t0"⟩ "t1"
     (by decide) (by simp) rfl⟩

/-- C9: for a stored job, `GET /jobs/{id}` responds 200 with
`croppedImageUrl` derived solely by `extractCroppedImageURL` from the
stored result document — the value of the `"croppedImageUrl"` key when
that value is a non-empty string, and `none` in every other case (empty
result, invalid JSON, non-object document, missing key, non-string
value, empty string); a malformed result never produces an error
response. -/
theorem GetJobsId_croppedImageUrl_spec (db : List JobRow) (id : String) :
    (∀ job, GetJob db id = some job →
        GetJobsId db id = (200, some
          { id := job.id, status := job.status,
            croppedImageUrl := extractCroppedImageURL job.result,
            error := extractError job.error,
            createdAt := job.createdAt, updatedAt := job.updatedAt }))
    ∧ (∀ (doc : RawDoc) (u : String),
        extractCroppedImageURL doc = some u ↔
        ∃ fields, doc = RawDoc.doc (GoValue.objV fields)
          ∧ fields.lookup "croppedImageUrl" = some (GoValue.strV u)
          ∧ u ≠ "") := by
  constructor
  · intro job hjob
    unfold GetJobsId
    rw [hjob]
  · intro doc u
    constructor
    · intro h
      cases doc with
      | empty => exact absurd h (by simp [extractCroppedImageURL])
      | invalid => exact absurd h (by simp [extractCroppedImageURL])
      | doc v =>
        cases v with
        | nullV => exact absurd h (by simp [extractCroppedImageURL])
        | boolV b => exact absurd h (by simp [extractCroppedImageURL])
        | numV n => exact absurd h (by simp [extractCroppedImageURL])
        | strV s => exact absurd h (by simp [extractCroppedImageURL])
        | arrV xs => exact absurd h (by simp [extractCroppedImageURL])
        | objV fields =>
          refine ⟨fields, rfl, ?_, ?_⟩
          · cases hl : fields.lookup "croppedImageUrl" with
            | none =>
              simp only [extractCroppedImageURL, hl] at h
              exact absurd h (by simp)
            | some val =>
              cases val with
              | strV s =>
                simp only [extractCroppedImageURL, hl] at h
                by_cases hs : (s == "") = true
                · rw [if_pos hs] at h
                  exact absurd h (by simp)
                · rw [if_neg hs] at h
                  rw [Option.some_inj.mp h]
              | nullV =>
                simp only [extractCroppedImageURL, hl] at h
                exact absurd h (by simp)
              | boolV b =>
                simp only [extractCroppedImageURL, hl] at h
                exact absurd h (by simp)
              | numV n =>
                simp only [extractCroppedImageURL, hl] at h
                exact absurd h (by simp)
              | arrV xs =>
                simp only [extractCroppedImageURL, hl] at h
                exact absurd h (by simp)
              | objV f2 =>
                simp only [extractCroppedImageURL, hl] at h
                exact absurd h (by simp)
          · cases hl : fields.lookup "croppedImageUrl" with
            | none =>
              simp only [extractCroppedImageURL, hl] at h
              exact absurd h (by simp)
            | some val =>
              cases val with
              | strV s =>
                simp only [extractCroppedImageURL, hl] at h
                by_cases hs : (s == "") = true
                · rw [if_pos hs] at h
                  exact absurd h (by simp)
                · rw [if_neg hs] at h
                  rw [← Option.some_inj.mp h]
                  simpa using hs
              | nullV =>
                simp only [extractCroppedImageURL, hl] at h
                exact absurd h (by simp)
              | boolV b =>
                simp only [extractCroppedImageURL, hl] at h
                exact absurd h (by simp)
              | numV n =>
                simp only [extractCroppedImageURL, hl] at h
                exact absurd h (by simp)
              | arrV xs =>
                simp only [extractCroppedImageURL, hl] at h
                exact absurd h (by simp)
              | objV f2 =>
                simp only [extractCroppedImageURL, hl] at h
                exact absurd h (by simp)
    · rintro ⟨fields, rfl, hl, hne⟩
      simp only [extractCroppedImageURL, hl]
      rw [if_neg (show ¬((u == "") = true) by simpa using hne)]

/-- Witness for C9: a job whose stored result is invalid JSON still gets
a 200 response, with a null `croppedImageUrl`. -/
theorem GetJobsId_croppedImageUrl_spec_witness :
    GetJobsId [⟨"j1", "done", "p", RawDoc.invalid, none, "t0", "t0"⟩] "j1" =
      (200, some
        { id := "j1", status := "done",
          croppedImageUrl := extractCroppedImageURL RawDoc.invalid,
          error := extractError none, createdAt := "t0", updatedAt := "t0" }) :=
  (GetJobsId_croppedImageUrl_spec
    [⟨"j1", "done", "p", RawDoc.invalid, none, "t0", "t0"⟩] "j1").1
    ⟨"j1", "done", "p", RawDoc.invalid, none, "t0", "t0"⟩ rfl
